import Mathlib

/-!
Shallow embedding of the frostgate pallet verifier (sources: src/lib.rs,
src/verification.rs, src/keys.rs) and proofs about its claims.

Modelling conventions:
  - u64 values are Nat; byte values are Nat (each byte is taken mod 256 where
    the source extracts bytes); [u8; 32] digests are List Nat of length 32.
  - Storage maps (Messages, Nonces, VerificationKeys, ProgramCache) are total
    functions into Option (ValueQuery maps into the value type with its
    default); an absent entry is none (respectively the default value 0).
  - External collaborators are oracles passed as parameters: the hashing of a
    message (T::Hashing::hash_of), the bincode deserializer of proof bytes,
    the SP1 backend call, and the currency reserve outcome.
  - The logical clock (T::BlockNumber::current().saturated_into::<u64>()) is a
    Nat parameter run through the saturating u64 cast.
-/

namespace Frostgate

/-- ChainId enumeration from src/lib.rs: Ethereum = 0, Polkadot = 1,
Solana = 2, Unknown = 255. -/
inductive ChainId where
  | Ethereum
  | Polkadot
  | Solana
  | Unknown
deriving DecidableEq

/-- The numeric discriminant of a ChainId, used by the casts
`message.from_chain as u64` and `message.from_chain as u8` in src/lib.rs. -/
def ChainId.discriminant : ChainId → Nat
  | .Ethereum => 0
  | .Polkadot => 1
  | .Solana => 2
  | .Unknown => 255

/-- MessageStatus enumeration from src/lib.rs. -/
inductive MessageStatus where
  | Pending
  | Verified
  | Failed
deriving DecidableEq

/-- Message record from src/lib.rs (payload and proof are byte lists,
sender is the abstract AccountId). -/
structure Message (AccountId : Type) where
  from_chain : ChainId
  to_chain : ChainId
  sender : AccountId
  payload : List Nat
  nonce : Nat
  timestamp : Nat
  status : MessageStatus
  proof : Option (List Nat)

/-- KeyError from src/keys.rs. -/
inductive KeyError where
  | InvalidFormat
  | NotFound
  | InvalidProgramHash
  | SystemError
deriving DecidableEq

/-- VerificationKeyEntry from src/keys.rs. -/
structure VerificationKeyEntry where
  program_hash : List Nat
  key_bytes : List Nat
  added_at : Nat
  metadata : Option (List Nat)
deriving DecidableEq

/-- VerificationKeyEntry::new from src/keys.rs. -/
def VerificationKeyEntry.new (program_hash key_bytes : List Nat)
    (added_at : Nat) (metadata : Option (List Nat)) : VerificationKeyEntry :=
  ⟨program_hash, key_bytes, added_at, metadata⟩

/-- VerificationKeyEntry::validate from src/keys.rs: empty key bytes are
InvalidFormat, an all-zero program hash is InvalidProgramHash. -/
def VerificationKeyEntry.validate (e : VerificationKeyEntry) :
    Except KeyError Unit :=
  if e.key_bytes.isEmpty then .error .InvalidFormat
  else if e.program_hash.all (· = 0) then .error .InvalidProgramHash
  else .ok ()

/-- ProgramCacheEntry from src/keys.rs. -/
structure ProgramCacheEntry where
  hash : List Nat
  bytes : List Nat
  cached_at : Nat
  use_count : Nat
deriving DecidableEq

/-- ProgramCacheEntry::new from src/keys.rs: use_count starts at 0. -/
def ProgramCacheEntry.new (hash bytes : List Nat) (cached_at : Nat) :
    ProgramCacheEntry :=
  ⟨hash, bytes, cached_at, 0⟩

/-- ProgramCacheEntry::increment_use_count from src/keys.rs:
use_count.saturating_add(1) on u64. -/
def ProgramCacheEntry.increment_use_count (e : ProgramCacheEntry) :
    ProgramCacheEntry :=
  { e with use_count := min (e.use_count + 1) (2 ^ 64 - 1) }

/-- VerificationError from src/verification.rs. -/
inductive VerificationError where
  | InvalidProofFormat
  | VerificationFailed
  | InvalidInput
  | SystemError
  | Sp1Error (bytes : List Nat)
deriving DecidableEq

/-- VerificationContext from src/verification.rs. -/
structure VerificationContext where
  verifying_key : List Nat
  program_hash : List Nat

/-- VerificationParams from src/verification.rs (u64 fields as Nat). -/
structure VerificationParams where
  proof : List Nat
  payload : List Nat
  from_chain : Nat
  to_chain : Nat
  nonce : Nat
  timestamp : Nat

/-- u64::to_be_bytes: the eight bytes of the low 64 bits of n, big-endian. -/
def u64_to_be_bytes (n : Nat) : List Nat :=
  [n / 2 ^ 56 % 256, n / 2 ^ 48 % 256, n / 2 ^ 40 % 256, n / 2 ^ 32 % 256,
   n / 2 ^ 24 % 256, n / 2 ^ 16 % 256, n / 2 ^ 8 % 256, n % 256]

/-- The input vector built in verify_proof (src/verification.rs lines 78-92):
from_chain, to_chain, payload length, payload, nonce, timestamp, the u64
fields as 8 big-endian bytes each. -/
def canonical_statement (from_chain to_chain : Nat) (payload : List Nat)
    (nonce timestamp : Nat) : List Nat :=
  u64_to_be_bytes from_chain ++
    (u64_to_be_bytes to_chain ++
      (u64_to_be_bytes payload.length ++
        (payload ++ (u64_to_be_bytes nonce ++ u64_to_be_bytes timestamp))))

/-- verify_proof from src/verification.rs, parameterized over the external
collaborators: `deserialize` stands for bincode::deserialize::<Sp1ProofType>
and `backend` for the call sp1_verify_proof(&backend, &sp1_proof,
&context.verifying_key), whose error is carried as its diagnostic bytes
(e.to_string().into_bytes()). The let binding of `input` mirrors the source,
which builds the canonical statement vector and passes only the deserialized
proof and the verifying key to the backend. -/
def verify_proof {Proof : Type}
    (deserialize : List Nat → Option Proof)
    (backend : Proof → List Nat → Except (List Nat) Bool)
    (context : VerificationContext) (params : VerificationParams) :
    Except VerificationError Unit :=
  if params.proof.isEmpty then .error .InvalidProofFormat
  else if params.from_chain > 2 ∨ params.to_chain > 2 then .error .InvalidInput
  else if params.timestamp < 1600000000 ∨ params.timestamp > 2000000000 then
    .error .InvalidInput
  else
    match deserialize params.proof with
    | none => .error .InvalidProofFormat
    | some sp1_proof =>
      let _input := canonical_statement params.from_chain params.to_chain
        params.payload params.nonce params.timestamp
      match backend sp1_proof context.verifying_key with
      | .ok true => .ok ()
      | .ok false => .error .VerificationFailed
      | .error e => .error (.Sp1Error e)

/-- Pallet errors from src/lib.rs (Error<T>). -/
inductive PalletError where
  | PayloadTooLarge
  | MessageNotFound
  | InvalidChainId
  | InvalidProof
  | AlreadyVerified
  | InvalidStatusTransition
  | VerificationFailed
  | KeyTooLarge
  | InvalidKey
  | ProgramNotFound
  | Sp1Error (bytes : List Nat)
deriving DecidableEq

/-- A DispatchResult error: either a pallet error or an error of an external
collaborator (such as the currency reserve in submit_message). -/
inductive DispatchError where
  | Module (e : PalletError)
  | Other
deriving DecidableEq

/-- The compile-time configuration constants of the pallet (Config trait). -/
structure Config where
  max_payload_size : Nat
  max_key_size : Nat
  max_program_age : Nat

/-- saturated_into::<u64>() on the block number. -/
def saturated_into_u64 (n : Nat) : Nat := min n (2 ^ 64 - 1)

/-- The storage of the pallet: Messages, Nonces (ValueQuery, default 0),
VerificationKeys and ProgramCache, keyed as in src/lib.rs. -/
structure PalletState (AccountId H : Type) where
  messages : H → Option (Message AccountId)
  nonces : ChainId → AccountId → Nat
  verification_keys : List Nat → Option VerificationKeyEntry
  program_cache : List Nat → Option ProgramCacheEntry

variable {AccountId H : Type}

/-- Pallet::get_next_nonce from src/lib.rs: read the counter (0 when no
entry exists), store counter + 1, return the pre-increment value. -/
def get_next_nonce [DecidableEq AccountId]
    (s : PalletState AccountId H) (chain_id : ChainId) (account : AccountId) :
    Nat × PalletState AccountId H :=
  let nonce := s.nonces chain_id account
  (nonce,
    { s with
      nonces := fun c a =>
        if c = chain_id ∧ a = account then nonce + 1 else s.nonces c a })

/-- Pallet::compute_program_hash from src/lib.rs: a 32-byte array whose
byte 0 is the origin chain discriminant, byte 1 the destination chain
discriminant, the rest zero. -/
def compute_program_hash (message : Message AccountId) : List Nat :=
  message.from_chain.discriminant :: message.to_chain.discriminant ::
    List.replicate 30 0

/-- Pallet::submit_message from src/lib.rs, parameterized over hash_of
(T::Hashing::hash_of) and the currency reserve outcome. Returns the dispatch
result paired with the resulting storage; submit_message is #[transactional],
so every error path leaves the storage as it was. The success value is the
message hash. -/
def submit_message [DecidableEq AccountId] [DecidableEq H]
    (cfg : Config) (hash_of : Message AccountId → H) (reserve_ok : Bool)
    (current_block : Nat) (s : PalletState AccountId H) (sender : AccountId)
    (from_chain to_chain : ChainId) (payload : List Nat)
    (proof : Option (List Nat)) :
    Except DispatchError H × PalletState AccountId H :=
  if ¬ payload.length ≤ cfg.max_payload_size then
    (.error (.Module .PayloadTooLarge), s)
  else if ¬ (from_chain ≠ ChainId.Unknown ∧ to_chain ≠ ChainId.Unknown) then
    (.error (.Module .InvalidChainId), s)
  else
    let r := get_next_nonce s from_chain sender
    let message : Message AccountId :=
      { from_chain := from_chain, to_chain := to_chain, sender := sender,
        payload := payload, nonce := r.1,
        timestamp := saturated_into_u64 current_block,
        status := .Pending, proof := proof }
    let hash := hash_of message
    if ¬ reserve_ok then (.error .Other, s)
    else
      (.ok hash,
        { r.2 with
          messages := fun h =>
            if h = hash then some message else r.2.messages h })

/-- The error mapping of verify_message (src/lib.rs lines 322-329) from a
VerificationError to the pallet error returned to the caller; the byte
payload of Sp1Error is the error_bytes computed just above it. -/
def map_verification_error : VerificationError → PalletError
  | .InvalidProofFormat => .InvalidProof
  | .VerificationFailed => .VerificationFailed
  | .InvalidInput => .InvalidChainId
  | .SystemError => .VerificationFailed
  | .Sp1Error bytes => .Sp1Error bytes

/-- Pallet::verify_message from src/lib.rs, parameterized over the proof
deserializer and backend oracles of verify_proof. Returns the dispatch
result paired with the resulting storage: the source inserts the updated
message before returning, on the failure path as well as on success. -/
def verify_message {Proof : Type} [DecidableEq AccountId] [DecidableEq H]
    (deserialize : List Nat → Option Proof)
    (backend : Proof → List Nat → Except (List Nat) Bool)
    (s : PalletState AccountId H) (message_hash : H) :
    Except DispatchError Unit × PalletState AccountId H :=
  match s.messages message_hash with
  | none => (.error (.Module .MessageNotFound), s)
  | some message =>
    if ¬ message.status = MessageStatus.Pending then
      (.error (.Module .InvalidStatusTransition), s)
    else
      match message.proof with
      | none => (.ok (), s)
      | some proof =>
        let program_hash := compute_program_hash message
        match s.verification_keys program_hash with
        | none => (.error (.Module .InvalidKey), s)
        | some key_entry =>
          let context : VerificationContext :=
            { verifying_key := key_entry.key_bytes,
              program_hash := program_hash }
          let params : VerificationParams :=
            { proof := proof, payload := message.payload,
              from_chain := message.from_chain.discriminant,
              to_chain := message.to_chain.discriminant,
              nonce := message.nonce, timestamp := message.timestamp }
          match verify_proof deserialize backend context params with
          | .ok () =>
            let updated := { message with status := MessageStatus.Verified }
            (.ok (),
              { s with
                messages := fun h =>
                  if h = message_hash then some updated else s.messages h })
          | .error e =>
            let updated := { message with status := MessageStatus.Failed }
            (.error (.Module (map_verification_error e)),
              { s with
                messages := fun h =>
                  if h = message_hash then some updated else s.messages h })

/-- Pallet::add_verification_key from src/lib.rs (the privileged origin
check is the external dispatch surface): size check, entry construction,
validate (mapped to InvalidKey), then insert. -/
def add_verification_key
    (cfg : Config) (current_block : Nat) (s : PalletState AccountId H)
    (program_hash key_bytes : List Nat) (metadata : Option (List Nat)) :
    Except DispatchError Unit × PalletState AccountId H :=
  if ¬ key_bytes.length ≤ cfg.max_key_size then
    (.error (.Module .KeyTooLarge), s)
  else
    let key_entry := VerificationKeyEntry.new program_hash key_bytes
      (saturated_into_u64 current_block) metadata
    match key_entry.validate with
    | .error _ => (.error (.Module .InvalidKey), s)
    | .ok () =>
      (.ok (),
        { s with
          verification_keys := fun h =>
            if h = program_hash then some key_entry
            else s.verification_keys h })

/-- Pallet::cache_program from src/lib.rs: store a fresh entry (use_count 0)
at program_hash. -/
def cache_program
    (current_block : Nat) (s : PalletState AccountId H)
    (program_hash program_bytes : List Nat) :
    PalletState AccountId H :=
  let entry := ProgramCacheEntry.new program_hash program_bytes
    (saturated_into_u64 current_block)
  { s with
    program_cache := fun h =>
      if h = program_hash then some entry else s.program_cache h }

/-- Pallet::cleanup_program_cache from src/lib.rs: retain the entries with
current_block.saturating_sub(cached_at) < max_age (Nat subtraction is the
saturating subtraction of the source). -/
def cleanup_program_cache
    (cfg : Config) (current_block : Nat) (s : PalletState AccountId H) :
    PalletState AccountId H :=
  let cb := saturated_into_u64 current_block
  let max_age := cfg.max_program_age
  { s with
    program_cache := fun h =>
      match s.program_cache h with
      | some entry => if cb - entry.cached_at < max_age then some entry else none
      | none => none }

/-- The VerificationParams that verify_message builds for a stored message. -/
def params_of (message : Message AccountId) (proof : List Nat) :
    VerificationParams :=
  { proof := proof, payload := message.payload,
    from_chain := message.from_chain.discriminant,
    to_chain := message.to_chain.discriminant,
    nonce := message.nonce, timestamp := message.timestamp }

/-- The VerificationContext that verify_message builds for a stored message. -/
def context_of (message : Message AccountId) (ke : VerificationKeyEntry) :
    VerificationContext :=
  { verifying_key := ke.key_bytes,
    program_hash := compute_program_hash message }

/-- The record that a successful submit_message builds and stores. -/
def submitted_message (blk : Nat) (s : PalletState AccountId H)
    (sender : AccountId) (fc tc : ChainId) (pl : List Nat)
    (pr : Option (List Nat)) : Message AccountId :=
  { from_chain := fc, to_chain := tc, sender := sender, payload := pl,
    nonce := s.nonces fc sender, timestamp := saturated_into_u64 blk,
    status := .Pending, proof := pr }

/-! ## Concrete fixtures (AccountId = Nat, Hash = Nat) -/

/-- A deserializer oracle that always succeeds (the proof representation is
collapsed to Unit). -/
def deserOk : List Nat → Option Unit := fun _ => some ()

/-- A backend oracle that accepts every (proof, key) pair. -/
def backendTrue : Unit → List Nat → Except (List Nat) Bool :=
  fun _ _ => .ok true

/-- A backend oracle that reports an error whose diagnostic bytes spell
"program" (a backend-side program error). -/
def backendErrProgram : Unit → List Nat → Except (List Nat) Bool :=
  fun _ _ => .error [112, 114, 111, 103, 114, 97, 109]

/-- A test configuration. -/
def cfgT : Config := ⟨16, 64, 5⟩

/-- The program hash resolved for a Polkadot to Solana message. -/
def phPS : List Nat := 1 :: 2 :: List.replicate 30 0

/-- A registered verification key entry for phPS. -/
def keT : VerificationKeyEntry := ⟨phPS, [7], 1, none⟩

/-- A pending Polkadot to Solana message with a nonempty proof. -/
def msgT : Message Nat :=
  ⟨.Polkadot, .Solana, 5, [1, 2, 3], 0, 1700000000, .Pending, some [9]⟩

/-- A test state: msgT stored at hash 0, keT registered for phPS, and one
program entry cached at time 3 under the hash [1]. -/
def sT : PalletState Nat Nat :=
  { messages := fun h => if h = 0 then some msgT else none,
    nonces := fun _ _ => 0,
    verification_keys := fun k => if k = phPS then some keT else none,
    program_cache := fun h => if h = [1] then some ⟨[1], [2], 3, 0⟩ else none }

/-- A hashing oracle for submissions in the scenarios. -/
def hashOfT : Message Nat → Nat := fun _ => 42

/-- The state of the C8 scenario: the admin has cached program bytes [4, 4]
for phPS at time 10 on top of sT (msgT pending at hash 0, keT registered
for phPS). -/
def sCache : PalletState Nat Nat := cache_program 10 sT phPS [4, 4]

/-- The state after submitting, at block 100, a Polkadot to Solana message
with payload [1] and an attached EMPTY proof. -/
def sSubEmpty : PalletState Nat Nat :=
  (submit_message cfgT hashOfT true 100 sT 5 .Polkadot .Solana [1]
    (some [])).2

/-- The state after submitting, at block 100, a Polkadot to Solana message
with payload [1] and the nonempty proof [9]. -/
def sSubNine : PalletState Nat Nat :=
  (submit_message cfgT hashOfT true 100 sT 5 .Polkadot .Solana [1]
    (some [9])).2

/-! ## Properties of the canonical statement encoding -/

theorem u64_to_be_bytes_length (n : Nat) : (u64_to_be_bytes n).length = 8 := rfl

theorem u64_to_be_bytes_inj {m n : Nat} (hm : m < 2 ^ 64) (hn : n < 2 ^ 64)
    (h : u64_to_be_bytes m = u64_to_be_bytes n) : m = n := by
  simp only [u64_to_be_bytes, List.cons.injEq, and_true] at h
  obtain ⟨h1, h2, h3, h4, h5, h6, h7, h8⟩ := h
  omega

theorem canonical_statement_inj {a b n t a2 b2 n2 t2 : Nat}
    {p p2 : List Nat}
    (ha : a < 2 ^ 64) (hb : b < 2 ^ 64) (hn : n < 2 ^ 64) (ht : t < 2 ^ 64)
    (ha2 : a2 < 2 ^ 64) (hb2 : b2 < 2 ^ 64) (hn2 : n2 < 2 ^ 64)
    (ht2 : t2 < 2 ^ 64) (hp : p.length < 2 ^ 64) (hp2 : p2.length < 2 ^ 64)
    (henc : canonical_statement a b p n t = canonical_statement a2 b2 p2 n2 t2) :
    a = a2 ∧ b = b2 ∧ p = p2 ∧ n = n2 ∧ t = t2 := by
  unfold canonical_statement at henc
  obtain ⟨hfa, henc⟩ := List.append_inj henc rfl
  obtain ⟨hfb, henc⟩ := List.append_inj henc rfl
  obtain ⟨hfl, henc⟩ := List.append_inj henc rfl
  have hlen : p.length = p2.length := u64_to_be_bytes_inj hp hp2 hfl
  obtain ⟨hfp, henc⟩ := List.append_inj henc hlen
  obtain ⟨hfn, hft⟩ := List.append_inj henc rfl
  exact ⟨u64_to_be_bytes_inj ha ha2 hfa, u64_to_be_bytes_inj hb hb2 hfb, hfp,
    u64_to_be_bytes_inj hn hn2 hfn, u64_to_be_bytes_inj ht ht2 hft⟩

/-! ## Branch characterizations of verify_proof -/

theorem verify_proof_empty {Proof : Type} (d : List Nat → Option Proof)
    (b : Proof → List Nat → Except (List Nat) Bool) (ctx : VerificationContext)
    (p : VerificationParams) (h : p.proof = []) :
    verify_proof d b ctx p = .error .InvalidProofFormat := by
  simp [verify_proof, h]

theorem verify_proof_bad_chain {Proof : Type} (d : List Nat → Option Proof)
    (b : Proof → List Nat → Except (List Nat) Bool) (ctx : VerificationContext)
    (p : VerificationParams) (h : p.proof ≠ [])
    (hc : 2 < p.from_chain ∨ 2 < p.to_chain) :
    verify_proof d b ctx p = .error .InvalidInput := by
  rw [verify_proof, if_neg, if_pos hc]
  simp [List.isEmpty_iff, h]

theorem verify_proof_bad_timestamp {Proof : Type} (d : List Nat → Option Proof)
    (b : Proof → List Nat → Except (List Nat) Bool) (ctx : VerificationContext)
    (p : VerificationParams) (h : p.proof ≠ [])
    (hf : p.from_chain ≤ 2) (ht : p.to_chain ≤ 2)
    (hts : p.timestamp < 1600000000 ∨ 2000000000 < p.timestamp) :
    verify_proof d b ctx p = .error .InvalidInput := by
  rw [verify_proof, if_neg, if_neg, if_pos hts]
  · omega
  · simp [List.isEmpty_iff, h]

theorem verify_proof_valid {Proof : Type} (d : List Nat → Option Proof)
    (b : Proof → List Nat → Except (List Nat) Bool) (ctx : VerificationContext)
    (p : VerificationParams) (h : p.proof ≠ [])
    (hf : p.from_chain ≤ 2) (ht : p.to_chain ≤ 2)
    (h1 : 1600000000 ≤ p.timestamp) (h2 : p.timestamp ≤ 2000000000) :
    verify_proof d b ctx p =
      match d p.proof with
      | none => .error .InvalidProofFormat
      | some pr =>
        match b pr ctx.verifying_key with
        | .ok true => .ok ()
        | .ok false => .error .VerificationFailed
        | .error e => .error (.Sp1Error e) := by
  rw [verify_proof, if_neg, if_neg, if_neg]
  · omega
  · omega
  · simp [List.isEmpty_iff, h]

/-- Claim C3: the canonical statement encoding is a deterministic function of
(origin, destination, payload, nonce, timestamp) in this exact order and
width (origin 8 bytes big-endian, destination 8 bytes big-endian, payload
length 8 bytes big-endian, payload bytes, nonce 8 bytes big-endian, timestamp
8 bytes big-endian); determinism is definitional (canonical_statement is a
pure function, so equal tuples give byte-identical output), each fixed field
occupies exactly 8 bytes (the total length is 40 + payload length), and the
encoding is injective on the tuple as long as every u64 field and the payload
length are in u64 range. -/
theorem claim_C3_canonical_encoding (a b n t a2 b2 n2 t2 : Nat)
    (p p2 : List Nat)
    (ha : a < 2 ^ 64) (hb : b < 2 ^ 64) (hn : n < 2 ^ 64) (ht : t < 2 ^ 64)
    (ha2 : a2 < 2 ^ 64) (hb2 : b2 < 2 ^ 64) (hn2 : n2 < 2 ^ 64)
    (ht2 : t2 < 2 ^ 64) (hp : p.length < 2 ^ 64) (hp2 : p2.length < 2 ^ 64) :
    (canonical_statement a b p n t).length = 40 + p.length ∧
    (canonical_statement a b p n t =
        u64_to_be_bytes a ++
          (u64_to_be_bytes b ++
            (u64_to_be_bytes p.length ++
              (p ++ (u64_to_be_bytes n ++ u64_to_be_bytes t))))) ∧
    (canonical_statement a b p n t = canonical_statement a2 b2 p2 n2 t2 →
      a = a2 ∧ b = b2 ∧ p = p2 ∧ n = n2 ∧ t = t2) := by
  refine ⟨?_, rfl, fun henc => canonical_statement_inj ha hb hn ht ha2 hb2
    hn2 ht2 hp hp2 henc⟩
  simp [canonical_statement, u64_to_be_bytes]
  omega

/-- Witness for claim C3 at a concrete tuple. -/
theorem claim_C3_witness :
    (canonical_statement 0 1 [7] 2 3).length = 41 :=
  (claim_C3_canonical_encoding 0 1 2 3 0 1 2 3 [7] [7]
    (by norm_num) (by norm_num) (by norm_num) (by norm_num) (by norm_num)
    (by norm_num) (by norm_num) (by norm_num) (by norm_num) (by norm_num)).1

/-- Claim C5: verify_proof performs its pre-backend validation in order:
empty proof bytes give InvalidProofFormat; otherwise a chain id above 2 (the
supported discriminants are 0, 1, 2) gives InvalidInput; otherwise a
timestamp outside [1600000000, 2000000000] gives InvalidInput; otherwise a
proof that fails to deserialize gives InvalidProofFormat. In each of the four
cases the stated result holds for every backend oracle, so the backend is
never consulted. -/
theorem claim_C5_prebackend_validation {Proof : Type}
    (d : List Nat → Option Proof)
    (b : Proof → List Nat → Except (List Nat) Bool)
    (ctx : VerificationContext) (p : VerificationParams) :
    (p.proof = [] → verify_proof d b ctx p = .error .InvalidProofFormat) ∧
    (p.proof ≠ [] → (2 < p.from_chain ∨ 2 < p.to_chain) →
      verify_proof d b ctx p = .error .InvalidInput) ∧
    (p.proof ≠ [] → p.from_chain ≤ 2 → p.to_chain ≤ 2 →
      (p.timestamp < 1600000000 ∨ 2000000000 < p.timestamp) →
      verify_proof d b ctx p = .error .InvalidInput) ∧
    (p.proof ≠ [] → p.from_chain ≤ 2 → p.to_chain ≤ 2 →
      1600000000 ≤ p.timestamp → p.timestamp ≤ 2000000000 →
      d p.proof = none →
      verify_proof d b ctx p = .error .InvalidProofFormat) := by
  refine ⟨fun h => verify_proof_empty d b ctx p h,
    fun h hc => verify_proof_bad_chain d b ctx p h hc,
    fun h hf ht hts => verify_proof_bad_timestamp d b ctx p h hf ht hts,
    fun h hf ht h1 h2 hd => ?_⟩
  rw [verify_proof_valid d b ctx p h hf ht h1 h2, hd]

/-- Claim C1 is a code bug: the source builds the canonical statement vector
but the backend is invoked as sp1_verify_proof(backend, sp1_proof,
context.verifying_key) without it, so the accept/reject decision cannot
depend on the canonical statement. For every deserializer and every backend,
two parameter records with the same proof bytes but entirely different
statement fields (different chains, payload, nonce and timestamp, hence
different canonical statements) produce the same outcome. -/
theorem claim_C1_statement_not_an_input {Proof : Type}
    (d : List Nat → Option Proof)
    (b : Proof → List Nat → Except (List Nat) Bool)
    (ctx : VerificationContext) :
    canonical_statement 0 1 [10] 5 1700000000 ≠
        canonical_statement 2 0 [] 99 1900000000 ∧
    verify_proof d b ctx
        { proof := [1], payload := [10], from_chain := 0, to_chain := 1,
          nonce := 5, timestamp := 1700000000 } =
      verify_proof d b ctx
        { proof := [1], payload := [], from_chain := 2, to_chain := 0,
          nonce := 99, timestamp := 1900000000 } := by
  constructor
  · decide
  · rw [verify_proof_valid d b ctx _ (by simp) (by norm_num) (by norm_num)
      (by norm_num) (by norm_num),
      verify_proof_valid d b ctx _ (by simp) (by norm_num) (by norm_num)
      (by norm_num) (by norm_num)]

/-! ## Branch characterizations of verify_message -/

variable {Proof : Type} [DecidableEq AccountId] [DecidableEq H]

theorem verify_message_not_found
    (d : List Nat → Option Proof)
    (b : Proof → List Nat → Except (List Nat) Bool)
    (s : PalletState AccountId H) (mh : H)
    (hm : s.messages mh = none) :
    verify_message d b s mh = (.error (.Module .MessageNotFound), s) := by
  simp [verify_message, hm]

theorem verify_message_not_pending
    (d : List Nat → Option Proof)
    (b : Proof → List Nat → Except (List Nat) Bool)
    (s : PalletState AccountId H) (mh : H) (m : Message AccountId)
    (hm : s.messages mh = some m) (hst : ¬ m.status = MessageStatus.Pending) :
    verify_message d b s mh = (.error (.Module .InvalidStatusTransition), s) := by
  simp [verify_message, hm, hst]

theorem verify_message_no_proof
    (d : List Nat → Option Proof)
    (b : Proof → List Nat → Except (List Nat) Bool)
    (s : PalletState AccountId H) (mh : H) (m : Message AccountId)
    (hm : s.messages mh = some m) (hst : m.status = MessageStatus.Pending)
    (hp : m.proof = none) :
    verify_message d b s mh = (.ok (), s) := by
  simp [verify_message, hm, hst, hp]

theorem verify_message_no_key
    (d : List Nat → Option Proof)
    (b : Proof → List Nat → Except (List Nat) Bool)
    (s : PalletState AccountId H) (mh : H) (m : Message AccountId)
    (proof : List Nat)
    (hm : s.messages mh = some m) (hst : m.status = MessageStatus.Pending)
    (hp : m.proof = some proof)
    (hk : s.verification_keys (compute_program_hash m) = none) :
    verify_message d b s mh = (.error (.Module .InvalidKey), s) := by
  simp [verify_message, hm, hst, hp, hk]

theorem verify_message_engine_ok
    (d : List Nat → Option Proof)
    (b : Proof → List Nat → Except (List Nat) Bool)
    (s : PalletState AccountId H) (mh : H) (m : Message AccountId)
    (proof : List Nat) (ke : VerificationKeyEntry)
    (hm : s.messages mh = some m) (hst : m.status = MessageStatus.Pending)
    (hp : m.proof = some proof)
    (hk : s.verification_keys (compute_program_hash m) = some ke)
    (hv : verify_proof d b (context_of m ke) (params_of m proof) = .ok ()) :
    verify_message d b s mh =
      (.ok (),
        { s with
          messages := fun h =>
            if h = mh then some { m with status := MessageStatus.Verified }
            else s.messages h }) := by
  simp only [verify_message, hm, hst, hp, hk]
  simp only [context_of, params_of] at hv
  simp [hv]

theorem verify_message_engine_err
    (d : List Nat → Option Proof)
    (b : Proof → List Nat → Except (List Nat) Bool)
    (s : PalletState AccountId H) (mh : H) (m : Message AccountId)
    (proof : List Nat) (ke : VerificationKeyEntry) (e : VerificationError)
    (hm : s.messages mh = some m) (hst : m.status = MessageStatus.Pending)
    (hp : m.proof = some proof)
    (hk : s.verification_keys (compute_program_hash m) = some ke)
    (hv : verify_proof d b (context_of m ke) (params_of m proof) = .error e) :
    verify_message d b s mh =
      (.error (.Module (map_verification_error e)),
        { s with
          messages := fun h =>
            if h = mh then some { m with status := MessageStatus.Failed }
            else s.messages h }) := by
  simp only [verify_message, hm, hst, hp, hk]
  simp only [context_of, params_of] at hv
  simp [hv]

/-! ## Branch characterizations of submit_message -/

theorem submit_message_ok (cfg : Config) (hash_of : Message AccountId → H)
    (blk : Nat) (s : PalletState AccountId H) (sender : AccountId)
    (fc tc : ChainId) (pl : List Nat) (pr : Option (List Nat))
    (hpl : pl.length ≤ cfg.max_payload_size)
    (hfc : fc ≠ ChainId.Unknown) (htc : tc ≠ ChainId.Unknown) :
    submit_message cfg hash_of true blk s sender fc tc pl pr =
      (.ok (hash_of (submitted_message blk s sender fc tc pl pr)),
        { s with
          messages := fun h =>
            if h = hash_of (submitted_message blk s sender fc tc pl pr) then
              some (submitted_message blk s sender fc tc pl pr)
            else s.messages h,
          nonces := fun c a =>
            if c = fc ∧ a = sender then s.nonces fc sender + 1
            else s.nonces c a }) := by
  simp [submit_message, get_next_nonce, submitted_message, hpl, hfc, htc]

theorem submit_message_ok_inv (cfg : Config) (hash_of : Message AccountId → H)
    (rsv : Bool) (blk : Nat) (s : PalletState AccountId H) (sender : AccountId)
    (fc tc : ChainId) (pl : List Nat) (pr : Option (List Nat)) (h1 : H)
    (s1 : PalletState AccountId H)
    (hsub : submit_message cfg hash_of rsv blk s sender fc tc pl pr =
      (.ok h1, s1)) :
    pl.length ≤ cfg.max_payload_size ∧
    fc ≠ ChainId.Unknown ∧ tc ≠ ChainId.Unknown ∧ rsv = true := by
  by_cases hpl : pl.length ≤ cfg.max_payload_size
  · by_cases hfc : fc ≠ ChainId.Unknown
    · by_cases htc : tc ≠ ChainId.Unknown
      · cases rsv with
        | true => exact ⟨hpl, hfc, htc, rfl⟩
        | false => simp [submit_message, hpl, hfc, htc] at hsub
      · simp [submit_message, hpl, hfc, htc] at hsub
    · simp [submit_message, hpl, hfc] at hsub
  · simp [submit_message, hpl] at hsub

/-- A successful submission stores the freshly built record, whose status is
Pending, under the returned hash. -/
theorem submit_message_stores_pending (cfg : Config)
    (hash_of : Message AccountId → H) (rsv : Bool) (blk : Nat)
    (s : PalletState AccountId H) (sender : AccountId) (fc tc : ChainId)
    (pl : List Nat) (pr : Option (List Nat)) (h1 : H)
    (s1 : PalletState AccountId H)
    (hsub : submit_message cfg hash_of rsv blk s sender fc tc pl pr =
      (.ok h1, s1)) :
    h1 = hash_of (submitted_message blk s sender fc tc pl pr) ∧
    s1 = { s with
      messages := fun h =>
        if h = hash_of (submitted_message blk s sender fc tc pl pr) then
          some (submitted_message blk s sender fc tc pl pr)
        else s.messages h,
      nonces := fun c a =>
        if c = fc ∧ a = sender then s.nonces fc sender + 1
        else s.nonces c a } ∧
    s1.messages h1 = some (submitted_message blk s sender fc tc pl pr) ∧
    (submitted_message blk s sender fc tc pl pr).status =
      MessageStatus.Pending := by
  obtain ⟨hpl, hfc, htc, hrsv⟩ := submit_message_ok_inv cfg hash_of rsv blk s
    sender fc tc pl pr h1 s1 hsub
  subst hrsv
  rw [submit_message_ok cfg hash_of blk s sender fc tc pl pr hpl hfc htc]
    at hsub
  injection hsub with hres hstate
  injection hres with hhash
  subst hhash
  subst hstate
  exact ⟨rfl, rfl, by simp, rfl⟩

/-- Every storage change verify_message makes to Messages is a transition of
the stored record at the requested hash from Pending to Verified or Failed;
every other slot is untouched. -/
theorem verify_message_transition
    (d : List Nat → Option Proof)
    (b : Proof → List Nat → Except (List Nat) Bool)
    (s : PalletState AccountId H) (mh : H) (r : Except DispatchError Unit)
    (s2 : PalletState AccountId H)
    (hv : verify_message d b s mh = (r, s2)) (h : H) :
    s2.messages h = s.messages h ∨
      (h = mh ∧ ∃ m st, s.messages h = some m ∧
        m.status = MessageStatus.Pending ∧
        (st = MessageStatus.Verified ∨ st = MessageStatus.Failed) ∧
        s2.messages h = some { m with status := st }) := by
  cases hms : s.messages mh with
  | none =>
    rw [verify_message_not_found d b s mh hms] at hv
    injection hv with _ hs
    subst hs
    exact Or.inl rfl
  | some m =>
    by_cases hst : m.status = MessageStatus.Pending
    · cases hp : m.proof with
      | none =>
        rw [verify_message_no_proof d b s mh m hms hst hp] at hv
        injection hv with _ hs
        subst hs
        exact Or.inl rfl
      | some pf =>
        cases hk : s.verification_keys (compute_program_hash m) with
        | none =>
          rw [verify_message_no_key d b s mh m pf hms hst hp hk] at hv
          injection hv with _ hs
          subst hs
          exact Or.inl rfl
        | some ke =>
          cases hvp : verify_proof d b (context_of m ke) (params_of m pf) with
          | ok u =>
            cases u
            rw [verify_message_engine_ok d b s mh m pf ke hms hst hp hk hvp]
              at hv
            injection hv with _ hs
            subst hs
            by_cases hh : h = mh
            · subst hh
              exact Or.inr ⟨rfl, m, MessageStatus.Verified, hms, hst,
                Or.inl rfl, by simp⟩
            · exact Or.inl (by simp [hh])
          | error e =>
            rw [verify_message_engine_err d b s mh m pf ke e hms hst hp hk hvp]
              at hv
            injection hv with _ hs
            subst hs
            by_cases hh : h = mh
            · subst hh
              exact Or.inr ⟨rfl, m, MessageStatus.Failed, hms, hst,
                Or.inr rfl, by simp⟩
            · exact Or.inl (by simp [hh])
    · rw [verify_message_not_pending d b s mh m hms hst] at hv
      injection hv with _ hs
      subst hs
      exact Or.inl rfl

/-- Claim C2: a message starts at Pending on submission; verify_message only
ever performs Pending to Verified and Pending to Failed transitions; a
message whose status is not Pending is rejected with InvalidStatusTransition
and the storage is left untouched; consequently a second verify_message call
on the same hash, after a first call that changed the stored record, fails
with InvalidStatusTransition for any oracles, leaving the record unchanged. -/
theorem claim_C2_status_machine {Proof AccountId H : Type}
    [DecidableEq AccountId] [DecidableEq H]
    (d : List Nat → Option Proof)
    (b : Proof → List Nat → Except (List Nat) Bool)
    (cfg : Config) (hash_of : Message AccountId → H) (rsv : Bool) (blk : Nat) :
    (∀ (s : PalletState AccountId H) sender fc tc pl pr h1 s1,
      submit_message cfg hash_of rsv blk s sender fc tc pl pr = (.ok h1, s1) →
      ∃ m, s1.messages h1 = some m ∧ m.status = MessageStatus.Pending) ∧
    (∀ (s : PalletState AccountId H) mh r s2,
      verify_message d b s mh = (r, s2) →
      ∀ h, s2.messages h = s.messages h ∨
        (h = mh ∧ ∃ m st, s.messages h = some m ∧
          m.status = MessageStatus.Pending ∧
          (st = MessageStatus.Verified ∨ st = MessageStatus.Failed) ∧
          s2.messages h = some { m with status := st })) ∧
    (∀ (s : PalletState AccountId H) mh m, s.messages mh = some m →
      ¬ m.status = MessageStatus.Pending →
      verify_message d b s mh =
        (.error (.Module .InvalidStatusTransition), s)) ∧
    (∀ (s : PalletState AccountId H) mh r1 s1,
      verify_message d b s mh = (r1, s1) →
      ¬ s1.messages mh = s.messages mh →
      ∀ {Proof2 : Type} (d2 : List Nat → Option Proof2)
        (b2 : Proof2 → List Nat → Except (List Nat) Bool),
        verify_message d2 b2 s1 mh =
          (.error (.Module .InvalidStatusTransition), s1)) := by
  refine ⟨?_, ?_, ?_, ?_⟩
  · intro s sender fc tc pl pr h1 s1 hsub
    obtain ⟨-, -, hm, hpend⟩ := submit_message_stores_pending cfg hash_of rsv
      blk s sender fc tc pl pr h1 s1 hsub
    exact ⟨submitted_message blk s sender fc tc pl pr, hm, hpend⟩
  · intro s mh r s2 hv h
    exact verify_message_transition d b s mh r s2 hv h
  · intro s mh m hm hst
    exact verify_message_not_pending d b s mh m hm hst
  · intro s mh r1 s1 hv hch Proof2 d2 b2
    rcases verify_message_transition d b s mh r1 s1 hv mh with hsame | hstep
    · exact absurd hsame hch
    · obtain ⟨-, m, st, -, -, hor, hs1⟩ := hstep
      refine verify_message_not_pending d2 b2 s1 mh { m with status := st }
        hs1 ?_
      rcases hor with rfl | rfl <;> simp

/-- Claim C4: the nonce tracker reads the stored counter (the map is a
ValueQuery whose default is 0, so a pair with no entry reads 0), stores
counter + 1, and returns the pre-increment value, leaving every other pair
untouched; hence two consecutive successful submit_message calls by the same
sender from the same origin chain assign nonces n and n + 1 (so the first
nonce ever assigned for a pair with no entry is 0), and the stored counter
strictly increases across submissions. -/
theorem claim_C4_nonce_tracker {AccountId H : Type}
    [DecidableEq AccountId] [DecidableEq H]
    (cfg : Config) (hash_of : Message AccountId → H) (rsv1 rsv2 : Bool)
    (blk1 blk2 : Nat) :
    (∀ (s : PalletState AccountId H) chain account,
      (get_next_nonce s chain account).1 = s.nonces chain account ∧
      (get_next_nonce s chain account).2.nonces chain account =
        s.nonces chain account + 1 ∧
      ∀ c a, ¬ (c = chain ∧ a = account) →
        (get_next_nonce s chain account).2.nonces c a = s.nonces c a) ∧
    (∀ (s : PalletState AccountId H) chain account,
      s.nonces chain account = 0 → (get_next_nonce s chain account).1 = 0) ∧
    (∀ (s : PalletState AccountId H) sender fc tc tc2 pl pl2 pr pr2 h1 s1 h2 s2,
      submit_message cfg hash_of rsv1 blk1 s sender fc tc pl pr =
        (.ok h1, s1) →
      submit_message cfg hash_of rsv2 blk2 s1 sender fc tc2 pl2 pr2 =
        (.ok h2, s2) →
      (∃ m1, s1.messages h1 = some m1 ∧ m1.nonce = s.nonces fc sender) ∧
      (∃ m2, s2.messages h2 = some m2 ∧
        m2.nonce = s.nonces fc sender + 1) ∧
      s1.nonces fc sender = s.nonces fc sender + 1 ∧
      s2.nonces fc sender = s.nonces fc sender + 2) := by
  refine ⟨?_, fun s chain account h => h, ?_⟩
  · intro s chain account
    refine ⟨rfl, by simp [get_next_nonce], ?_⟩
    intro c a hca
    simp [get_next_nonce, hca]
  · intro s sender fc tc tc2 pl pl2 pr pr2 h1 s1 h2 s2 hsub1 hsub2
    obtain ⟨-, hs1, hm1, -⟩ := submit_message_stores_pending cfg hash_of rsv1
      blk1 s sender fc tc pl pr h1 s1 hsub1
    obtain ⟨-, hs2, hm2, -⟩ := submit_message_stores_pending cfg hash_of rsv2
      blk2 s1 sender fc tc2 pl2 pr2 h2 s2 hsub2
    have hn1 : s1.nonces fc sender = s.nonces fc sender + 1 := by
      rw [hs1]; simp
    refine ⟨⟨submitted_message blk1 s sender fc tc pl pr, hm1, rfl⟩,
      ⟨submitted_message blk2 s1 sender fc tc2 pl2 pr2, hm2, ?_⟩, hn1, ?_⟩
    · simp [submitted_message, hn1]
    · rw [hs2]; simp [hn1]

/-- Claim C7: an entry cached at time t0 survives cleanup_program_cache run
at logical time now with configured age max_age exactly when
now - t0 < max_age (Nat subtraction matching the saturating subtraction of
the source, so an entry cached in the future survives while max_age is
positive), a surviving entry is stored unchanged, and the sweep is
idempotent. -/
theorem claim_C7_cache_eviction {AccountId H : Type}
    (cfg : Config) (now : Nat) (hno : now < 2 ^ 64)
    (s : PalletState AccountId H) :
    (∀ (hsh : List Nat) (e : ProgramCacheEntry),
      (cleanup_program_cache cfg now s).program_cache hsh = some e ↔
        (s.program_cache hsh = some e ∧
          now - e.cached_at < cfg.max_program_age)) ∧
    cleanup_program_cache cfg now (cleanup_program_cache cfg now s) =
      cleanup_program_cache cfg now s := by
  have hmin : saturated_into_u64 now = now := by
    simp only [saturated_into_u64]
    omega
  constructor
  · intro hsh e
    simp only [cleanup_program_cache, hmin]
    cases hpc : s.program_cache hsh with
    | none => simp
    | some entry =>
      simp only [Option.some.injEq]
      by_cases hc : now - entry.cached_at < cfg.max_program_age
      · simp only [if_pos hc, Option.some.injEq]
        constructor
        · rintro rfl
          exact ⟨rfl, hc⟩
        · rintro ⟨h1, -⟩
          exact h1
      · simp only [if_neg hc]
        constructor
        · intro hcon
          exact absurd hcon (by simp)
        · rintro ⟨rfl, hcon⟩
          exact absurd hcon hc
  · unfold cleanup_program_cache
    simp only [hmin]
    congr 1
    funext hsh
    cases hpc : s.program_cache hsh with
    | none => simp [hpc]
    | some entry =>
      by_cases hc : now - entry.cached_at < cfg.max_program_age
      · simp [hpc, hc]
      · simp [hpc, hc]

/-- Witness for claim C7: the fresh entry cached at time 3 survives the
sweep at time 7 with max age 5. -/
theorem claim_C7_witness :
    (cleanup_program_cache cfgT 7 sT).program_cache [1] =
      some ⟨[1], [2], 3, 0⟩ :=
  ((claim_C7_cache_eviction cfgT 7 (by norm_num) sT).1 [1]
    ⟨[1], [2], 3, 0⟩).mpr ⟨by simp [sT], by simp [cfgT]⟩

/-! ## The all-zero program hash -/

theorem discriminant_le_two {c : ChainId} (h : c ≠ ChainId.Unknown) :
    c.discriminant ≤ 2 := by
  cases c with
  | Unknown => exact absurd rfl h
  | _ => simp [ChainId.discriminant]

theorem compute_program_hash_ethereum {A : Type} (m : Message A)
    (hf : m.from_chain = ChainId.Ethereum)
    (ht : m.to_chain = ChainId.Ethereum) :
    compute_program_hash m = List.replicate 32 0 := by
  simp [compute_program_hash, hf, ht, ChainId.discriminant]

theorem replicate_32_zero_all_zero :
    (List.replicate 32 0).all (fun x => x = 0) = true := by
  decide

/-- add_verification_key rejects the all-zero program hash (surfaced as
InvalidKey) whenever the key size check passes, and no call to it, whatever
its arguments, ever creates an entry at the all-zero hash. -/
theorem add_verification_key_zero_hash {AccountId H : Type}
    (cfg : Config) (blk : Nat) (s : PalletState AccountId H)
    (kb : List Nat) (md : Option (List Nat)) :
    (kb.length ≤ cfg.max_key_size →
      add_verification_key cfg blk s (List.replicate 32 0) kb md =
        (.error (.Module .InvalidKey), s)) ∧
    ∀ (ph : List Nat),
      (add_verification_key cfg blk s ph kb md).2.verification_keys
          (List.replicate 32 0) =
        s.verification_keys (List.replicate 32 0) := by
  constructor
  · intro hkb
    simp only [add_verification_key, hkb, not_true_eq_false, if_neg,
      not_false_eq_true]
    cases hke : kb.isEmpty with
    | true => simp [VerificationKeyEntry.validate, VerificationKeyEntry.new,
        hke]
    | false => simp [VerificationKeyEntry.validate, VerificationKeyEntry.new,
        hke, replicate_32_zero_all_zero]
  · intro ph
    unfold add_verification_key
    split
    · rfl
    · cases hval : (VerificationKeyEntry.new ph kb
          (saturated_into_u64 blk) md).validate with
      | error e => simp [hval]
      | ok u =>
        cases u
        simp only [hval]
        by_cases hph : (List.replicate 32 0 : List Nat) = ph
        · exfalso
          rw [← hph] at hval
          cases hke : kb.isEmpty with
          | true => simp [VerificationKeyEntry.validate,
              VerificationKeyEntry.new, hke] at hval
          | false => simp [VerificationKeyEntry.validate,
              VerificationKeyEntry.new, hke, replicate_32_zero_all_zero]
              at hval
        · show (if (List.replicate 32 0 : List Nat) = ph then
              some (VerificationKeyEntry.new ph kb (saturated_into_u64 blk) md)
            else s.verification_keys (List.replicate 32 0)) =
            s.verification_keys (List.replicate 32 0)
          exact if_neg hph

/-- Claim C10: for a message whose origin and destination are both Ethereum
(discriminant 0), compute_program_hash is the all-zero 32-byte digest;
add_verification_key rejects that digest with InvalidKey (and no call with
any arguments ever stores an entry under it, so from a state with no entry
at the all-zero hash none is ever reachable); and verify_message on such a
pending message carrying a proof fails with InvalidKey leaving the storage,
and hence the Pending status, untouched. -/
theorem claim_C10_zero_hash :
    (∀ (A : Type) (m : Message A),
      m.from_chain = ChainId.Ethereum → m.to_chain = ChainId.Ethereum →
      compute_program_hash m = List.replicate 32 0) ∧
    (∀ (A H : Type) (cfg : Config) (blk : Nat) (s : PalletState A H)
      (kb : List Nat) (md : Option (List Nat)),
      (kb.length ≤ cfg.max_key_size →
        add_verification_key cfg blk s (List.replicate 32 0) kb md =
          (.error (.Module .InvalidKey), s)) ∧
      ∀ ph, (add_verification_key cfg blk s ph kb md).2.verification_keys
          (List.replicate 32 0) =
        s.verification_keys (List.replicate 32 0)) ∧
    (∀ (Proof A H : Type) (_ : DecidableEq A) (_ : DecidableEq H)
      (d : List Nat → Option Proof)
      (b : Proof → List Nat → Except (List Nat) Bool)
      (s : PalletState A H) (mh : H) (m : Message A) (pf : List Nat),
      s.messages mh = some m → m.status = MessageStatus.Pending →
      m.from_chain = ChainId.Ethereum → m.to_chain = ChainId.Ethereum →
      m.proof = some pf →
      s.verification_keys (List.replicate 32 0) = none →
      verify_message d b s mh = (.error (.Module .InvalidKey), s)) := by
  refine ⟨fun A m hf ht => compute_program_hash_ethereum m hf ht,
    fun A H cfg blk s kb md => add_verification_key_zero_hash cfg blk s kb md,
    ?_⟩
  intro Proof A H iA iH d b s mh m pf hm hst hf ht hp hk
  refine verify_message_no_key d b s mh m pf hm hst hp ?_
  rw [compute_program_hash_ethereum m hf ht]
  exact hk

/-! ## Backend outcome mapping -/

theorem verify_proof_backend_outcome {Proof : Type}
    (d : List Nat → Option Proof)
    (b : Proof → List Nat → Except (List Nat) Bool)
    (ctx : VerificationContext) (p : VerificationParams) (pr : Proof)
    (h : p.proof ≠ []) (hf : p.from_chain ≤ 2) (ht : p.to_chain ≤ 2)
    (h1 : 1600000000 ≤ p.timestamp) (h2 : p.timestamp ≤ 2000000000)
    (hd : d p.proof = some pr) :
    (b pr ctx.verifying_key = .ok true → verify_proof d b ctx p = .ok ()) ∧
    (b pr ctx.verifying_key = .ok false →
      verify_proof d b ctx p = .error .VerificationFailed) ∧
    (∀ e, b pr ctx.verifying_key = .error e →
      verify_proof d b ctx p = .error (.Sp1Error e)) := by
  rw [verify_proof_valid d b ctx p h hf ht h1 h2, hd]
  exact ⟨fun hb => by simp [hb], fun hb => by simp [hb],
    fun e hb => by simp [hb]⟩

/-- Claim C6 counterexample: a backend-reported error, whatever its nature
(here one whose diagnostic bytes spell "program"), is mapped to
Sp1Error(bytes), not to InvalidProofFormat, InvalidInput or SystemError as
the claim would have for backend-reported program/format and
statement/input errors. -/
theorem claim_C6_counterexample :
    verify_proof deserOk backendErrProgram ⟨[7], phPS⟩
        ⟨[9], [1, 2, 3], 1, 2, 0, 1700000000⟩ =
      .error (.Sp1Error [112, 114, 111, 103, 114, 97, 109]) ∧
    VerificationError.Sp1Error [112, 114, 111, 103, 114, 97, 109] ≠
      .InvalidProofFormat ∧
    VerificationError.Sp1Error [112, 114, 111, 103, 114, 97, 109] ≠
      .InvalidInput ∧
    VerificationError.Sp1Error [112, 114, 111, 103, 114, 97, 109] ≠
      .SystemError := by
  refine ⟨?_, by decide, by decide, by decide⟩
  rfl

/-- Claim C6 as amended: once the pre-backend validation passes and the
proof deserializes, a backend answer of true yields success, false yields
VerificationFailed, and every backend-reported error yields Sp1Error
carrying its diagnostic bytes (no backend outcome yields InvalidProofFormat,
InvalidInput or SystemError; those arise only in the pre-backend
validation); and on the verification path every engine failure kind moves
the stored message terminally to Failed while the error kind mapped by
map_verification_error (InvalidProofFormat to InvalidProof,
VerificationFailed to VerificationFailed, InvalidInput to InvalidChainId,
SystemError to VerificationFailed, Sp1Error to Sp1Error) is surfaced to the
caller rather than swallowed. -/
theorem claim_C6_backend_outcomes :
    (∀ (Proof : Type) (d : List Nat → Option Proof)
      (b : Proof → List Nat → Except (List Nat) Bool)
      (ctx : VerificationContext) (p : VerificationParams) (pr : Proof),
      p.proof ≠ [] → p.from_chain ≤ 2 → p.to_chain ≤ 2 →
      1600000000 ≤ p.timestamp → p.timestamp ≤ 2000000000 →
      d p.proof = some pr →
      ((b pr ctx.verifying_key = .ok true → verify_proof d b ctx p = .ok ()) ∧
       (b pr ctx.verifying_key = .ok false →
         verify_proof d b ctx p = .error .VerificationFailed) ∧
       (∀ e, b pr ctx.verifying_key = .error e →
         verify_proof d b ctx p = .error (.Sp1Error e)))) ∧
    (∀ (Proof A H : Type) (_ : DecidableEq A) (_ : DecidableEq H)
      (d : List Nat → Option Proof)
      (b : Proof → List Nat → Except (List Nat) Bool)
      (s : PalletState A H) (mh : H) (m : Message A) (pf : List Nat)
      (ke : VerificationKeyEntry) (e : VerificationError),
      s.messages mh = some m → m.status = MessageStatus.Pending →
      m.proof = some pf →
      s.verification_keys (compute_program_hash m) = some ke →
      verify_proof d b (context_of m ke) (params_of m pf) = .error e →
      verify_message d b s mh =
        (.error (.Module (map_verification_error e)),
          { s with
            messages := fun h =>
              if h = mh then some { m with status := MessageStatus.Failed }
              else s.messages h })) := by
  constructor
  · intro Proof d b ctx p pr h hf ht h1 h2 hd
    exact verify_proof_backend_outcome d b ctx p pr h hf ht h1 h2 hd
  · intro Proof A H iA iH d b s mh m pf ke e hm hst hp hk hv
    exact verify_message_engine_err d b s mh m pf ke e hm hst hp hk hv

/-! ## verify_message never touches the program cache -/

theorem verify_message_preserves_program_cache
    {Proof AccountId H : Type} [DecidableEq AccountId] [DecidableEq H]
    (d : List Nat → Option Proof)
    (b : Proof → List Nat → Except (List Nat) Bool)
    (s : PalletState AccountId H) (mh : H) :
    (verify_message d b s mh).2.program_cache = s.program_cache := by
  cases hms : s.messages mh with
  | none => rw [verify_message_not_found d b s mh hms]
  | some m =>
    by_cases hst : m.status = MessageStatus.Pending
    · cases hp : m.proof with
      | none => rw [verify_message_no_proof d b s mh m hms hst hp]
      | some pf =>
        cases hk : s.verification_keys (compute_program_hash m) with
        | none => rw [verify_message_no_key d b s mh m pf hms hst hp hk]
        | some ke =>
          cases hvp : verify_proof d b (context_of m ke) (params_of m pf) with
          | ok u =>
            cases u
            rw [verify_message_engine_ok d b s mh m pf ke hms hst hp hk hvp]
          | error e =>
            rw [verify_message_engine_err d b s mh m pf ke e hms hst hp hk hvp]
    · rw [verify_message_not_pending d b s mh m hms hst]

/-- Claim C8 is a code bug. The helper increment_use_count does add 1
(saturating) and cache_program stores use_count = 0, but verify_message
never reads or writes the program cache: in the scenario of the claim, a
verify_message call that succeeds for a message whose resolved program hash
is phPS leaves the cached entry with use_count = 0, not 1. -/
theorem claim_C8_use_count_stays_zero :
    (ProgramCacheEntry.new phPS [4, 4] 10).use_count = 0 ∧
    (ProgramCacheEntry.new phPS [4, 4] 10).increment_use_count.use_count = 1 ∧
    (∀ (Proof A H : Type) (_ : DecidableEq A) (_ : DecidableEq H)
      (d : List Nat → Option Proof)
      (b : Proof → List Nat → Except (List Nat) Bool)
      (s : PalletState A H) (mh : H),
      (verify_message d b s mh).2.program_cache = s.program_cache) ∧
    sCache.program_cache phPS = some ⟨phPS, [4, 4], 10, 0⟩ ∧
    (verify_message deserOk backendTrue sCache 0).1 = .ok () ∧
    (verify_message deserOk backendTrue sCache 0).2.messages 0 =
      some { msgT with status := MessageStatus.Verified } ∧
    (verify_message deserOk backendTrue sCache 0).2.program_cache phPS =
      some ⟨phPS, [4, 4], 10, 0⟩ := by
  refine ⟨rfl, rfl, ?_, ?_, ?_, ?_, ?_⟩
  · intro Proof A H iA iH d b s mh
    exact verify_message_preserves_program_cache d b s mh
  · rfl
  · rfl
  · rfl
  · rfl

/-! ## Claim C9: sub-window submission timestamps -/

/-- Claim C9 as amended: a message submitted at a block number below
1600000000 carries that block number as its timestamp; if its proof is
nonempty and its resolved program hash has a registered key, verify_message
reaches the engine, the engine rejects the timestamp with InvalidInput
(surfaced as the pallet error InvalidChainId), and the message is marked
Failed. (The amendment restricts the claim to nonempty proofs: an empty
attached proof is rejected earlier, with InvalidProofFormat.) -/
theorem claim_C9_amended {Proof AccountId H : Type}
    [DecidableEq AccountId] [DecidableEq H]
    (d : List Nat → Option Proof)
    (b : Proof → List Nat → Except (List Nat) Bool)
    (cfg : Config) (hash_of : Message AccountId → H) (rsv : Bool) (blk : Nat)
    (s : PalletState AccountId H) (sender : AccountId) (fc tc : ChainId)
    (pl p : List Nat) (hblk : blk < 1600000000) (hp : p ≠ [])
    (h1 : H) (s1 : PalletState AccountId H)
    (hsub : submit_message cfg hash_of rsv blk s sender fc tc pl (some p) =
      (.ok h1, s1))
    (ke : VerificationKeyEntry)
    (hke : s1.verification_keys
        (compute_program_hash
          (submitted_message blk s sender fc tc pl (some p))) = some ke) :
    verify_message d b s1 h1 =
      (.error (.Module .InvalidChainId),
        { s1 with
          messages := fun h =>
            if h = h1 then
              some { submitted_message blk s sender fc tc pl (some p) with
                status := MessageStatus.Failed }
            else s1.messages h }) := by
  obtain ⟨hplen, hfc, htc, -⟩ := submit_message_ok_inv cfg hash_of rsv blk s
    sender fc tc pl (some p) h1 s1 hsub
  obtain ⟨-, -, hm, hpend⟩ := submit_message_stores_pending cfg hash_of rsv
    blk s sender fc tc pl (some p) h1 s1 hsub
  have hengine : verify_proof d b
      (context_of (submitted_message blk s sender fc tc pl (some p)) ke)
      (params_of (submitted_message blk s sender fc tc pl (some p)) p) =
      .error .InvalidInput := by
    apply verify_proof_bad_timestamp
    · exact hp
    · exact discriminant_le_two hfc
    · exact discriminant_le_two htc
    · left
      show (submitted_message blk s sender fc tc pl (some p)).timestamp <
        1600000000
      simp only [submitted_message, saturated_into_u64]
      omega
  exact verify_message_engine_err d b s1 h1
    (submitted_message blk s sender fc tc pl (some p)) p ke .InvalidInput
    hm hpend rfl hke hengine

/-- Claim C9 counterexample: the message submitted at block 100 (below
1600000000) carrying the empty proof, whose resolved program hash phPS has
the registered key keT, is rejected by the engine with InvalidProofFormat
at the empty-proof check, not with InvalidInput at the timestamp check as
the claim states for every message carrying a proof; the message is still
marked Failed, with the pallet error InvalidProof surfaced. -/
theorem claim_C9_counterexample :
    (100 : Nat) < 1600000000 ∧
    (submit_message cfgT hashOfT true 100 sT 5 .Polkadot .Solana [1]
      (some [])).1 = .ok 42 ∧
    sSubEmpty.messages 42 =
      some ⟨.Polkadot, .Solana, 5, [1], 0, 100, .Pending, some []⟩ ∧
    sSubEmpty.verification_keys phPS = some keT ∧
    verify_proof deserOk backendTrue
        (context_of
          (⟨.Polkadot, .Solana, 5, [1], 0, 100, .Pending, some []⟩ :
            Message Nat) keT)
        (params_of
          (⟨.Polkadot, .Solana, 5, [1], 0, 100, .Pending, some []⟩ :
            Message Nat) []) =
      .error .InvalidProofFormat ∧
    VerificationError.InvalidProofFormat ≠ VerificationError.InvalidInput ∧
    (verify_message deserOk backendTrue sSubEmpty 42).1 =
      .error (.Module .InvalidProof) ∧
    (verify_message deserOk backendTrue sSubEmpty 42).2.messages 42 =
      some ⟨.Polkadot, .Solana, 5, [1], 0, 100, .Failed, some []⟩ := by
  exact ⟨by norm_num, rfl, rfl, rfl, rfl, by decide, rfl, rfl⟩

/-- Witness for claim C9 as amended, at the concrete submission of sSubNine. -/
theorem claim_C9_witness :
    verify_message deserOk backendTrue sSubNine 42 =
      (.error (.Module .InvalidChainId),
        { sSubNine with
          messages := fun h =>
            if h = 42 then
              some { submitted_message 100 sT 5 .Polkadot .Solana [1]
                  (some [9]) with status := MessageStatus.Failed }
            else sSubNine.messages h }) :=
  claim_C9_amended deserOk backendTrue cfgT hashOfT true 100 sT 5 .Polkadot
    .Solana [1] [9] (by norm_num) (by decide) 42 sSubNine rfl keT rfl

end Frostgate
